import Mathlib

/-!
Verification of the scrap-cnpj ingestion core (backend/app/services):
a shallow embedding of the row parsers, the estabelecimentos status
filter, the 100-chunk consolidation partition of `loader_v3.py`, the
version registry of `versioning.py`, and the orchestration of
`pipeline.py`, together with proofs of the specified properties.
-/

namespace ScrapCNPJ

/-! ## Python string primitives

Models of the Python `str` operations used by the loader:
`str.strip()`, `str.zfill(n)`, slicing `s[:n]`, `str.replace`,
`s.split(".")[0]`, and `float(s)`.  Strings are Lean `String`s
(the input CSVs are decoded latin-1 text).
-/

/-- Characters removed by Python `str.strip()` (ASCII whitespace). -/
def isPySpace (c : Char) : Bool :=
  c = ' ' || c = '\t' || c = '\n' || c = '\r' || c = '\x0b' || c = '\x0c'

/-- Python `s.strip()`: drop leading and trailing whitespace. -/
def pyStrip (s : String) : String :=
  ⟨((s.data.dropWhile isPySpace).reverse.dropWhile isPySpace).reverse⟩

/-- Python `s.zfill(w)`: left-pad with `'0'` to width `w`, keeping a
leading sign character in front of the padding. -/
def zfill (w : Nat) (s : String) : String :=
  let cs := s.data
  if w ≤ cs.length then s
  else
    match cs with
    | c :: rest =>
        if c = '+' || c = '-' then
          ⟨c :: (List.replicate (w - cs.length) '0' ++ rest)⟩
        else
          ⟨List.replicate (w - cs.length) '0' ++ cs⟩
    | [] => ⟨List.replicate w '0'⟩

/-- Python slice `s[:n]`. -/
def pyTake (n : Nat) (s : String) : String := ⟨s.data.take n⟩

/-- Python `s.split(".")[0]`: the prefix before the first `'.'`
(the whole string when there is no dot). -/
def splitDot0 (s : String) : String := ⟨s.data.takeWhile (fun c => c ≠ '.')⟩

/-- `_clean_null_bytes`: remove NUL bytes (`\x00`). -/
def cleanNullBytes (s : String) : String := ⟨s.data.filter (fun c => c ≠ '\x00')⟩

/-- One character of `_escape_pg_copy`'s escaping: backslash, tab,
newline and carriage return become two-character escapes. -/
def escChar (c : Char) : List Char :=
  if c = '\\' then ['\\', '\\']
  else if c = '\t' then ['\\', 't']
  else if c = '\n' then ['\\', 'n']
  else if c = '\r' then ['\\', 'r']
  else [c]

/-- `_escape_pg_copy`: remove NULs, then escape backslash, tab,
newline and carriage return for COPY TEXT format.  (The source does
this with four sequential `str.replace` calls, backslash first;
since none of the replacements introduces a character that a later
replacement rewrites, this equals the per-character translation.) -/
def escapePgCopy (s : String) : String :=
  if s = "" then ""
  else ⟨((s.data.filter (fun c => c ≠ '\x00')).map escChar).flatten⟩

/-- Python `s.replace(",", ".")`. -/
def replaceCommaDot (s : String) : String :=
  ⟨s.data.map (fun c => if c = ',' then '.' else c)⟩

/-- Decimal digit test by code point (`'0'` to `'9'`). -/
def isDig (c : Char) : Bool := 48 ≤ c.toNat && c.toNat ≤ 57

/-- Numeric value of a digit character. -/
def dval (c : Char) : Nat := c.toNat - 48

/-- Value of a most-significant-first digit list. -/
def digitsVal : List Char → Nat
  | [] => 0
  | c :: cs => dval c * 10 ^ cs.length + digitsVal cs

/-- Parse a nonempty all-digit character list. -/
def digitsToNat? (cs : List Char) : Option Nat :=
  if cs ≠ [] ∧ cs.all isDig then some (digitsVal cs) else none

/-- Mantissa of a Python float literal: `digits [. digits]` or
`. digits`, with at least one digit.  Returns numerator and the
number of fractional digits. -/
def pyFloatMantissa (cs : List Char) : Option (Nat × Nat) :=
  let intPart := cs.takeWhile (fun c => c ≠ '.')
  let rest := cs.dropWhile (fun c => c ≠ '.')
  match rest with
  | [] => (digitsToNat? intPart).map fun n => (n, 0)
  | _ :: fracPart =>
      if (intPart ≠ [] ∨ fracPart ≠ []) ∧ intPart.all isDig ∧ fracPart.all isDig then
        some (digitsVal intPart * 10 ^ fracPart.length + digitsVal fracPart,
              fracPart.length)
      else none

/-- Optional sign prefix; returns `(sign, rest)`. -/
def pySign : List Char → Int × List Char
  | '+' :: r => (1, r)
  | '-' :: r => (-1, r)
  | r => (1, r)

/-- Model of Python `float(s)` on finite decimal literals
(optional sign, decimal mantissa, optional decimal exponent), as an
exact rational.  Strings `float` rejects give `none`. -/
def pyFloat (s : String) : Option ℚ :=
  let signed := pySign (pyStrip s).data
  let sgn := signed.1
  let mant := signed.2.takeWhile (fun c => c ≠ 'e' ∧ c ≠ 'E')
  let expRest := signed.2.dropWhile (fun c => c ≠ 'e' ∧ c ≠ 'E')
  match pyFloatMantissa mant with
  | none => none
  | some (num, frac) =>
      match expRest with
      | [] => some (sgn * (num : ℚ) / 10 ^ frac)
      | _ :: expPart =>
          let esigned := pySign expPart
          match digitsToNat? esigned.2 with
          | none => none
          | some e =>
              let base : ℚ := sgn * (num : ℚ) / 10 ^ frac
              if esigned.1 = 1 then some (base * 10 ^ e)
              else some (base / 10 ^ e)

/-- List prefix test. -/
def isPrefixL : List Char → List Char → Bool
  | [], _ => true
  | _ :: _, [] => false
  | a :: as, b :: bs => a = b && isPrefixL as bs

/-- Substring occurrence test on character lists. -/
def containsSubL (pat : List Char) : List Char → Bool
  | [] => isPrefixL pat []
  | c :: cs => isPrefixL pat (c :: cs) || containsSubL pat cs

/-- Python substring test `pat in s`. -/
def containsSub (s pat : String) : Bool := containsSubL pat.data s.data

/-! ## Row parsing (`loader_v3.py`)

One CSV row is a `List String` (the fields produced by the `;`
csv reader).  Out-of-range reads never happen on accepted rows, so
they are modelled with `List.getD _ ""`.
-/

/-- Row-length acceptance in `_stream_empresas_file_same_conn`
(`if len(row) < 7: continue`).  `true` means the row is processed. -/
def empresasRowAccepted (row : List String) : Bool := !(row.length < 7)

/-- Row-length acceptance in `_stream_simples_file_same_conn`
(`if len(row) < 7: continue`). -/
def simplesRowAccepted (row : List String) : Bool := !(row.length < 7)

/-- Row acceptance in `_stream_socios_file_same_conn`
(`if not row or len(row) < 5: continue`). -/
def sociosRowAccepted (row : List String) : Bool :=
  !(row.isEmpty || row.length < 5)

/-- The `staging_empresas` tuple built per accepted row in
`_stream_empresas_file_same_conn`. -/
structure EmpresaStagingRow where
  cnpj_basico : String
  razao_social : String
  natureza_juridica : String
  qualificacao_responsavel : String
  capital_social : ℚ
  porte_empresa : String
  ente_federativo : String
deriving Repr, DecidableEq

/-- Field computation of `_stream_empresas_file_same_conn`
(lines 389-408 of `loader_v3.py`), `float` modelled by `pyFloat`. -/
def buildEmpresaRow (row : List String) : EmpresaStagingRow :=
  let f := fun i => row.getD i ""
  let qualificacaoRaw := if f 3 ≠ "" then splitDot0 (pyStrip (f 3)) else ""
  let capitalStr := cleanNullBytes (if f 4 ≠ "" then replaceCommaDot (f 4) else "0")
  let porteRaw := if f 5 ≠ "" then splitDot0 (pyStrip (f 5)) else ""
  { cnpj_basico := cleanNullBytes (zfill 8 (pyStrip (f 0)))
    razao_social := escapePgCopy (if f 1 ≠ "" then pyTake 255 (f 1) else "")
    natureza_juridica := cleanNullBytes (if f 2 ≠ "" then pyTake 4 (f 2) else "")
    qualificacao_responsavel :=
      cleanNullBytes (if qualificacaoRaw ≠ "" then pyTake 2 qualificacaoRaw else "")
    capital_social := (pyFloat capitalStr).getD 0
    porte_empresa := cleanNullBytes (if porteRaw ≠ "" then pyTake 2 porteRaw else "")
    ente_federativo := escapePgCopy (if f 6 ≠ "" then pyTake 100 (f 6) else "") }

/-- The `staging_estabelecimentos` tuple (32 columns) built per kept
row in `_stream_estabelecimentos_to_staging`. -/
structure EstabStagingRow where
  cnpj14 : String
  cnpj_basico : String
  cnpj_ordem : String
  cnpj_dv : String
  matriz_filial : String
  nome_fantasia : String
  situacao_cadastral : String
  data_situacao_cadastral : String
  motivo_situacao_cadastral : String
  nome_cidade_exterior : String
  codigo_pais : String
  pais : String
  data_inicio_atividade : String
  cnae_fiscal_principal : String
  cnae_fiscal_secundaria : String
  tipo_logradouro : String
  logradouro : String
  numero : String
  complemento : String
  bairro : String
  cep : String
  uf : String
  municipio : String
  ddd1 : String
  telefone1 : String
  ddd2 : String
  telefone2 : String
  ddd_fax : String
  fax : String
  email : String
  situacao_especial : String
  data_situacao_especial : String
deriving Repr, DecidableEq

/-- The parsed registration status of an estabelecimentos row
(`row[5].strip().split(".")[0]` then `[:2]`, empty-propagating). -/
def situacaoParsed (row : List String) : String :=
  let raw := if row.getD 5 "" ≠ "" then splitDot0 (pyStrip (row.getD 5 "")) else ""
  if raw ≠ "" then pyTake 2 raw else ""

/-- A row of `_stream_estabelecimentos_to_staging` is written to
staging iff it has at least 30 fields and its parsed status is not
`"08"` (lines 1043-1058 of `loader_v3.py`). -/
def estabRowKept (row : List String) : Bool :=
  !(row.length < 30) && situacaoParsed row ≠ "08"

/-- Field computation of `_stream_estabelecimentos_to_staging`
(lines 1047-1094 of `loader_v3.py`). -/
def buildEstabRow (row : List String) : EstabStagingRow :=
  let f := fun i => row.getD i ""
  let cnpjBasico := zfill 8 (pyStrip (f 0))
  let cnpjOrdem := zfill 4 (pyStrip (f 1))
  let cnpjDv := zfill 2 (pyStrip (f 2))
  let motivoRaw := if f 7 ≠ "" then splitDot0 (pyStrip (f 7)) else ""
  { cnpj14 := cnpjBasico ++ cnpjOrdem ++ cnpjDv
    cnpj_basico := cnpjBasico
    cnpj_ordem := cnpjOrdem
    cnpj_dv := cnpjDv
    matriz_filial := cleanNullBytes (if f 3 ≠ "" then pyTake 1 (f 3) else "")
    nome_fantasia := escapePgCopy (if f 4 ≠ "" then pyTake 255 (f 4) else "")
    situacao_cadastral := situacaoParsed row
    data_situacao_cadastral := cleanNullBytes (if f 6 ≠ "" then pyTake 8 (f 6) else "")
    motivo_situacao_cadastral := if motivoRaw ≠ "" then pyTake 2 motivoRaw else ""
    nome_cidade_exterior := escapePgCopy (if f 8 ≠ "" then pyTake 100 (f 8) else "")
    codigo_pais := cleanNullBytes (if f 9 ≠ "" then pyTake 3 (f 9) else "")
    pais := escapePgCopy (if f 10 ≠ "" then pyTake 100 (f 10) else "")
    data_inicio_atividade := cleanNullBytes (if f 11 ≠ "" then pyTake 8 (f 11) else "")
    cnae_fiscal_principal := cleanNullBytes (if f 12 ≠ "" then pyTake 7 (f 12) else "")
    cnae_fiscal_secundaria := escapePgCopy (if f 12 ≠ "" then f 12 else "")
    tipo_logradouro := escapePgCopy (if f 13 ≠ "" then pyTake 50 (f 13) else "")
    logradouro := escapePgCopy (if f 14 ≠ "" then pyTake 255 (f 14) else "")
    numero := escapePgCopy (if f 15 ≠ "" then pyTake 20 (f 15) else "")
    complemento := escapePgCopy (if f 16 ≠ "" then pyTake 255 (f 16) else "")
    bairro := escapePgCopy (if f 17 ≠ "" then pyTake 100 (f 17) else "")
    cep := cleanNullBytes (if f 18 ≠ "" then pyTake 8 (f 18) else "")
    uf := cleanNullBytes (if f 19 ≠ "" then pyTake 2 (f 19) else "")
    municipio := escapePgCopy (if f 20 ≠ "" then pyTake 100 (f 20) else "")
    ddd1 := cleanNullBytes (if f 21 ≠ "" then pyTake 4 (f 21) else "")
    telefone1 := escapePgCopy (if f 22 ≠ "" then pyTake 20 (f 22) else "")
    ddd2 := cleanNullBytes (if f 23 ≠ "" then pyTake 4 (f 23) else "")
    telefone2 := escapePgCopy (if f 24 ≠ "" then pyTake 20 (f 24) else "")
    ddd_fax := cleanNullBytes (if f 25 ≠ "" then pyTake 4 (f 25) else "")
    fax := escapePgCopy (if f 26 ≠ "" then pyTake 20 (f 26) else "")
    email := escapePgCopy (if f 27 ≠ "" then pyTake 255 (f 27) else "")
    situacao_especial := escapePgCopy (if f 28 ≠ "" then pyTake 100 (f 28) else "")
    data_situacao_especial := cleanNullBytes (if f 29 ≠ "" then pyTake 8 (f 29) else "") }

/-- The rows a list of input CSV rows contributes to
`staging_estabelecimentos`: the loop of
`_stream_estabelecimentos_to_staging` writes exactly the kept rows. -/
def streamEstabRows (rows : List (List String)) : List EstabStagingRow :=
  (rows.filter estabRowKept).map buildEstabRow

/-- The claim's reading of the empresas key: left-zero-pad to 8
after removing non-digit characters.  (Spec wording; compare
`buildEmpresaRow`, whose `strip()` removes only whitespace.) -/
def claimCnpjBasico (s : String) : String := zfill 8 ⟨s.data.filter isDig⟩

/-! ## Chunk partition (FASE 3 PARTE 2, `_load_estabelecimentos_phase`)

The consolidation loop runs `chunk_num` from 0 to 99 with
`range_start = f"{chunk_num * 1000000:08d}"` and, except for chunk
99, `range_end = f"{(chunk_num + 1) * 1000000:08d}"`; chunk 99 uses
the literal `"99999999"` and an inclusive upper bound.  The SQL
`WHERE` clause compares `cnpj_basico` against these strings with
byte-wise (lexicographic) text comparison, modelled by `lexLt`.
-/

/-- Decimal digit character of `k mod 10`. -/
def natDigit (k : Nat) : Char :=
  match k % 10 with
  | 0 => '0' | 1 => '1' | 2 => '2' | 3 => '3' | 4 => '4'
  | 5 => '5' | 6 => '6' | 7 => '7' | 8 => '8' | _ => '9'

/-- Python `f"{m:08d}"` for `m < 10^8`: the 8 decimal digits of `m`. -/
def pad8 (m : Nat) : String :=
  ⟨[natDigit (m / 10000000), natDigit (m / 1000000), natDigit (m / 100000),
    natDigit (m / 10000), natDigit (m / 1000), natDigit (m / 100),
    natDigit (m / 10), natDigit m]⟩

/-- Lexicographic strict comparison of character lists (the order
Postgres uses on the ASCII `cnpj_basico` values). -/
def lexLt : List Char → List Char → Bool
  | [], [] => false
  | [], _ :: _ => true
  | _ :: _, [] => false
  | a :: as, b :: bs => if a = b then lexLt as bs else decide (a < b)

/-- Strict `text <` comparison of the SQL range predicates. -/
def strLtB (v w : String) : Bool := lexLt v.data w.data

/-- Non-strict `text <=` comparison of the SQL range predicates. -/
def strLeB (v w : String) : Bool := !(lexLt w.data v.data)

/-- The lower bound string of chunk `n`. -/
def chunkRangeStart (n : Nat) : String := pad8 (n * 1000000)

/-- The upper bound string of chunk `n` (`"99999999"` for chunk 99). -/
def chunkRangeEnd (n : Nat) : String :=
  if n = 99 then "99999999" else pad8 ((n + 1) * 1000000)

/-- The `WHERE` clause of chunk `n` applied to a `cnpj_basico`
value: inclusive lower bound, upper bound strict except inclusive
for chunk 99. -/
def inChunk (n : Nat) (v : String) : Bool :=
  if n = 99 then strLeB (chunkRangeStart n) v && strLeB v (chunkRangeEnd n)
  else strLeB (chunkRangeStart n) v && strLtB v (chunkRangeEnd n)

/-- An 8-character all-digit string (every `cnpj_basico` of a staged
row that came from digit input). -/
def isDigits8 (v : String) : Bool := v.length = 8 && v.data.all isDig

/-- Numeric value of a digit string. -/
def strVal (v : String) : Nat := digitsVal v.data

/-! ## Version registry (`versioning.py`, `models/versioning.py`)

`data_versions` rows; `started_at` is modelled as a `Nat` tick. -/

inductive IngestionStatus
  | pending
  | running
  | completed
  | failed
deriving Repr, DecidableEq

/-- One `data_versions` row. -/
structure DataVersion where
  release : String
  status : IngestionStatus
  startedAt : Nat
  finishedAt : Option Nat
  note : Option String
deriving Repr, DecidableEq

/-- `current_release`: the most recently started row
(`ORDER BY started_at DESC`, first row), `none` on an empty table. -/
def currentRelease (rs : List DataVersion) : Option DataVersion :=
  rs.foldl
    (fun acc r =>
      match acc with
      | none => some r
      | some a => if a.startedAt < r.startedAt then some r else acc)
    none

/-- `start_release`: update the row of `release` to `running` with a
fresh `started_at` and cleared `finished_at`/`note`, inserting the
row if absent. -/
def startRelease (now : Nat) (r : String) : List DataVersion → List DataVersion
  | [] => [⟨r, .running, now, none, none⟩]
  | v :: vs =>
      if v.release = r then
        { v with status := .running, startedAt := now, finishedAt := none,
                 note := none } :: vs
      else v :: startRelease now r vs

/-- `finish_release`: set the row of `release` to
`completed`/`failed` with `finished_at = now` and the given note;
no-op when the row is absent. -/
def finishRelease (now : Nat) (r : String) (success : Bool)
    (note : Option String) : List DataVersion → List DataVersion
  | [] => []
  | v :: vs =>
      if v.release = r then
        { v with status := if success then .completed else .failed,
                 finishedAt := some now, note := note } :: vs
      else v :: finishRelease now r success note vs

/-- Lookup of the `data_versions` row of a release. -/
def findRelease (r : String) : List DataVersion → Option DataVersion
  | [] => none
  | v :: vs => if v.release = r then some v else findRelease r vs

/-! ## Pipeline orchestration (`pipeline.py`) -/

/-- The short-circuit test of `Pipeline.run`:
`current and current.release == target and current.status == "completed"`. -/
def alreadyCompleted (target : String) (reg : List DataVersion) : Bool :=
  match currentRelease reg with
  | some cur => cur.release = target && decide (cur.status = .completed)
  | none => false

/-- Result of one `Pipeline.run` call: final registry, final
collaborator state, and the returned release or re-raised message. -/
structure RunResult (σ : Type) where
  registry : List DataVersion
  fs : σ
  outcome : Except String String

/-- `Pipeline.run` for an explicit target release over an abstract
body (download → extract → load → cleanup, which touches only the
collaborator state `σ` and may raise): short-circuit when the
current release is the completed target; otherwise start the
release, run the body, and finish with success or with the
exception text as note, re-raising the exception. -/
def pipelineRun {σ : Type} (now : Nat) (body : σ → σ × Option String)
    (target : String) (reg : List DataVersion) (fs : σ) : RunResult σ :=
  if alreadyCompleted target reg then ⟨reg, fs, .ok target⟩
  else
    let reg1 := startRelease now target reg
    let res := body fs
    match res.2 with
    | some e => ⟨finishRelease now target false (some e) reg1, res.1, .error e⟩
    | none => ⟨finishRelease now target true none reg1, res.1, .ok target⟩

/-! ## Loader state machine (`LoaderV3.load_files`)

A single-release model of the database and filesystem state the
loader mutates, together with a trace of its observable actions.
Phase functions follow `loader_v3.py` section by section; the only
abstractions are that COPY batches of one file are merged into one
`copyRows` event and that a `socios`/`staging_*` table is its row
multiset (here: row count, plus the `cnpj_basico` keys where the
chunked join needs them). -/

/-- One extracted CSV file: name and parsed rows. -/
structure InputFile where
  name : String
  rows : List (List String)
deriving Repr, DecidableEq

/-- Observable loader actions. -/
inductive Ev
  | copyRows (table : String) (n : Nat)
  | markFile (fase : String) (filename : String) (rows : Nat)
  | markPhase (phase : String)
  | truncate (table : String)
  | deleteRange (lo : String) (hi : String)
  | chunkInsert (label : String) (n : Nat)
  | createIndexes (table : String)
  | dropTable (table : String)
  | rmTree (dir : String)
deriving Repr, DecidableEq

/-- Database and filesystem state of one release's run. -/
structure LoadState where
  empRows : Nat
  simRows : Nat
  stagingEstab : List String
  estabFinal : List String
  sociosRows : Nat
  empresasTableExists : Bool
  simplesTableExists : Bool
  stagingEstabTableExists : Bool
  estabTableExists : Bool
  processed : List (String × String × Nat)
  cp1 : Bool
  cp2 : Bool
  cp3 : Bool
  cp4 : Bool
  controlTablesExist : Bool
  rawDirExists : Bool
  stagingDirExists : Bool
deriving Repr, DecidableEq

/-- `COUNT(*) FROM import_files_processed WHERE fase = :fase`. -/
def countFase (ps : List (String × String × Nat)) (fase : String) : Nat :=
  (ps.filter (fun e => e.1 = fase)).length

/-- `_is_file_processed`. -/
def isFileProcessed (ps : List (String × String × Nat))
    (fase filename : String) : Bool :=
  ps.any (fun e => e.1 = fase && e.2.1 = filename)

/-- `_mark_file_processed`: upsert on `(fase, filename)`. -/
def markFileProcessed (fase filename : String) (rows : Nat) :
    List (String × String × Nat) → List (String × String × Nat)
  | [] => [(fase, filename, rows)]
  | e :: es =>
      if e.1 = fase ∧ e.2.1 = filename then (fase, filename, rows) :: es
      else e :: markFileProcessed fase filename rows es

/-- The `(filename, rows_imported)` entries of one fase. -/
def faseEntries (ps : List (String × String × Nat)) (fase : String) :
    List (String × Nat) :=
  ps.filterMap (fun e => if e.1 = fase then some (e.2.1, e.2.2) else none)

/-- Rows contributed by one empresas file (`len(row) < 7` skipped). -/
def empresasFileRows (f : InputFile) : Nat :=
  (f.rows.filter empresasRowAccepted).length

/-- Rows contributed by one simples file. -/
def simplesFileRows (f : InputFile) : Nat :=
  (f.rows.filter simplesRowAccepted).length

/-- Rows contributed by one socios file. -/
def sociosFileRows (f : InputFile) : Nat :=
  (f.rows.filter sociosRowAccepted).length

/-- Per-file streaming loop shared by phases 1, 2 and 4: COPY the
accepted rows of each pending file, then record the file.  Returns
the updated `import_files_processed`, the trace, and the total rows
written. -/
def streamFiles (table fase : String) (countRows : InputFile → Nat) :
    List InputFile → List (String × String × Nat) →
      List (String × String × Nat) × List Ev × Nat
  | [], ps => (ps, [], 0)
  | f :: fs, ps =>
      let n := countRows f
      let evs := (if 0 < n then [Ev.copyRows table n] else []) ++
        [Ev.markFile fase f.name n]
      let rest := streamFiles table fase countRows fs
        (markFileProcessed fase f.name n ps)
      (rest.1, evs ++ rest.2.1, n + rest.2.2)

/-- FASE 1 (`_load_empresas_phase`): create `staging_empresas`,
truncate on a fresh run, stream the pending files. -/
def loadEmpresasPhase (files : List InputFile) (st : LoadState) :
    LoadState × List Ev :=
  let fresh := countFase st.processed "fase1_empresas" = 0
  let st1 := { st with empresasTableExists := true,
                       empRows := if fresh then 0 else st.empRows }
  let tr1 : List Ev := if fresh then [.truncate "staging_empresas"] else []
  let pending := files.filter
    (fun f => !(isFileProcessed st.processed "fase1_empresas" f.name))
  let res := streamFiles "staging_empresas" "fase1_empresas" empresasFileRows
    pending st1.processed
  ({ st1 with processed := res.1, empRows := st1.empRows + res.2.2 },
   tr1 ++ res.2.1)

/-- FASE 2 (`_load_simples_phase`). -/
def loadSimplesPhase (files : List InputFile) (st : LoadState) :
    LoadState × List Ev :=
  let fresh := countFase st.processed "fase2_simples" = 0
  let st1 := { st with simplesTableExists := true,
                       simRows := if fresh then 0 else st.simRows }
  let tr1 : List Ev := if fresh then [.truncate "staging_simples"] else []
  let pending := files.filter
    (fun f => !(isFileProcessed st.processed "fase2_simples" f.name))
  let res := streamFiles "staging_simples" "fase2_simples" simplesFileRows
    pending st1.processed
  ({ st1 with processed := res.1, simRows := st1.simRows + res.2.2 },
   tr1 ++ res.2.1)

/-- FASE 4 (`_load_socios_phase`): like FASE 1/2 but into the final
`socios` table, followed by index creation. -/
def loadSociosPhase (files : List InputFile) (st : LoadState) :
    LoadState × List Ev :=
  let fresh := countFase st.processed "fase4_socios" = 0
  let st1 := { st with sociosRows := if fresh then 0 else st.sociosRows }
  let tr1 : List Ev := if fresh then [.truncate "socios"] else []
  let pending := files.filter
    (fun f => !(isFileProcessed st.processed "fase4_socios" f.name))
  let res := streamFiles "socios" "fase4_socios" sociosFileRows
    pending st1.processed
  ({ st1 with processed := res.1, sociosRows := st1.sociosRows + res.2.2 },
   tr1 ++ res.2.1 ++ [Ev.createIndexes "socios"])

/-- The staged `cnpj_basico` keys one estabelecimentos file
contributes (kept rows only). -/
def estabFileKeys (f : InputFile) : List String :=
  (f.rows.filter estabRowKept).map (fun r => zfill 8 (pyStrip (r.getD 0 "")))

/-- Streaming loop of FASE 3 PARTE 1. -/
def streamEstabFiles :
    List InputFile → List (String × String × Nat) →
      List (String × String × Nat) × List Ev × List String
  | [], ps => (ps, [], [])
  | f :: fs, ps =>
      let keys := estabFileKeys f
      let n := keys.length
      let evs := (if 0 < n then [Ev.copyRows "staging_estabelecimentos" n] else []) ++
        [Ev.markFile "fase3_parte1_staging" f.name n]
      let rest := streamEstabFiles fs
        (markFileProcessed "fase3_parte1_staging" f.name n ps)
      (rest.1, evs ++ rest.2.1, keys ++ rest.2.2)

/-- FASE 3 PARTE 1: create `staging_estabelecimentos`, truncate on a
fresh run, stream the pending files. -/
def fase3Parte1 (files : List InputFile) (st : LoadState) :
    LoadState × List Ev :=
  let fresh := countFase st.processed "fase3_parte1_staging" = 0
  let st1 := { st with stagingEstabTableExists := true,
                       stagingEstab := if fresh then [] else st.stagingEstab }
  let tr1 : List Ev := if fresh then [.truncate "staging_estabelecimentos"] else []
  let pending := files.filter
    (fun f => !(isFileProcessed st.processed "fase3_parte1_staging" f.name))
  let res := streamEstabFiles pending st1.processed
  ({ st1 with processed := res.1, stagingEstab := st1.stagingEstab ++ res.2.2 },
   tr1 ++ res.2.1)

/-- `f"chunk_{n:03d}"`. -/
def chunkLabel (n : Nat) : String :=
  "chunk_" ++ ⟨[natDigit (n / 100), natDigit (n / 10), natDigit n]⟩

/-- `(cnpj_basico::bigint / 1000000)::int`. -/
def chunkOfKey (v : String) : Nat := strVal v / 1000000

/-- Whether `fase3_parte2_create_table` is already recorded. -/
def parte2Done (st : LoadState) : Bool :=
  decide (countFase st.processed "fase3_parte2_create_table" ≠ 0)

/-- The chunk checkpoints recorded in `import_files_processed`. -/
def processedChunks0 (st : LoadState) : List (String × Nat) :=
  faseEntries st.processed "fase3_parte2_chunks"

/-- The chunks the recovery query finds: chunk numbers whose final
row count equals a non-zero staging row count. -/
def recoveredChunks (st : LoadState) : List (String × Nat) :=
  (List.range 100).filterMap fun k =>
    let f := (st.estabFinal.filter (fun v => chunkOfKey v = k)).length
    let s := (st.stagingEstab.filter (fun v => chunkOfKey v = k)).length
    if f ≠ 0 ∧ s ≠ 0 ∧ f = s then some (chunkLabel k, f) else none

/-- Record a list of recovered chunk checkpoints. -/
def markAllChunks (rc : List (String × Nat))
    (ps : List (String × String × Nat)) : List (String × String × Nat) :=
  rc.foldl (fun acc e => markFileProcessed "fase3_parte2_chunks" e.1 e.2 acc) ps

/-- The pre-chunk-loop recovery of PARTE 2: when no chunk
checkpoints exist but both the final and the staging table exist,
mark every fully-consolidated chunk as done.  Returns the updated
state, the trace, and the local `processed_chunks` dictionary. -/
def applyRecovery (st : LoadState) : LoadState × List Ev × List (String × Nat) :=
  if processedChunks0 st = [] ∧ st.estabTableExists = true
      ∧ st.stagingEstabTableExists = true then
    ({ st with processed := markAllChunks (recoveredChunks st) st.processed },
     (recoveredChunks st).map (fun e => Ev.markFile "fase3_parte2_chunks" e.1 e.2),
     processedChunks0 st ++ recoveredChunks st)
  else (st, [], processedChunks0 st)

def fatalEmpresasMsg : String :=
  "FATAL: staging_empresas esta vazia! Execute a FASE 1 antes da FASE 3."

def fatalSimplesMsg : String :=
  "FATAL: staging_simples esta vazia! Execute a FASE 2 antes da FASE 3."

/-- Accumulator of the 100-chunk loop: state, trace, the pending
range-cleanup flag, the local `processed_chunks` labels, and the
running `total_rows_inserted`. -/
structure ChunkLoop where
  st : LoadState
  tr : List Ev
  needsCleanup : Bool
  labels : List String
  total : Nat

/-- One iteration of the chunk loop: skip chunks in the local
dictionary; otherwise DELETE the chunk's range once per run if
resuming, INSERT the joined staging rows of the range, COMMIT and
mark the chunk checkpoint. -/
def runChunk (acc : ChunkLoop) (n : Nat) : ChunkLoop :=
  let lbl := chunkLabel n
  if lbl ∈ acc.labels then acc
  else
    let st := acc.st
    let st1 :=
      if acc.needsCleanup then
        { st with estabFinal := st.estabFinal.filter (fun v => !(inChunk n v)) }
      else st
    let trDel : List Ev :=
      if acc.needsCleanup then [.deleteRange (chunkRangeStart n) (chunkRangeEnd n)]
      else []
    let newKeys := st1.stagingEstab.filter (fun v => inChunk n v)
    let st2 := { st1 with
      estabFinal := st1.estabFinal ++ newKeys,
      processed := markFileProcessed "fase3_parte2_chunks" lbl newKeys.length
        st1.processed }
    { st := st2,
      tr := acc.tr ++ trDel ++ [.chunkInsert lbl newKeys.length],
      needsCleanup := false,
      labels := acc.labels ++ [lbl],
      total := acc.total + newKeys.length }

/-- FASE 3 PARTE 2 (consolidation): recovery, the
`staging_empresas`/`staging_simples` emptiness guard, table
creation or resume, the 100-chunk loop, and the `CONSOLIDATED`
checkpoint.  Errors are returned instead of raised. -/
def fase3Parte2 (st : LoadState) : LoadState × List Ev × Option String :=
  let r := applyRecovery st
  let st1 := r.1
  let trRec := r.2.1
  let pc := r.2.2
  if parte2Done st then (st1, trRec, none)
  else
    if pc.length = 100 then
      let total0 := (pc.map Prod.snd).sum
      let total := if total0 = 0 then st1.estabFinal.length else total0
      let ps1 := markFileProcessed "fase3_parte2_create_table" "CONSOLIDATED" total st1.processed
      ({ st1 with processed := ps1 },
       trRec ++ [Ev.markFile "fase3_parte2_create_table" "CONSOLIDATED" total],
       none)
    else
      if st1.empRows = 0 then (st1, trRec, some fatalEmpresasMsg)
      else if st1.simRows = 0 then (st1, trRec, some fatalSimplesMsg)
      else
        let reset := pc.length = 0 ∨ st1.estabTableExists = false
        let st2 :=
          if reset then
            { st1 with estabFinal := [], estabTableExists := true }
          else st1
        let trCreate : List Ev :=
          if reset then [.dropTable "estabelecimentos"] else []
        let pc2 := if reset then ([] : List (String × Nat)) else pc
        let loop := (List.range 100).foldl runChunk
          { st := st2, tr := [], needsCleanup := 0 < pc2.length,
            labels := pc2.map Prod.fst, total := (pc2.map Prod.snd).sum }
        let ps2 := markFileProcessed "fase3_parte2_create_table" "CONSOLIDATED" loop.total loop.st.processed
        ({ loop.st with processed := ps2 },
         trRec ++ trCreate ++ loop.tr ++
           [Ev.markFile "fase3_parte2_create_table" "CONSOLIDATED" loop.total],
         none)

/-- FASE 3 PARTE 3: index creation, checkpointed. -/
def fase3Parte3 (st : LoadState) : LoadState × List Ev :=
  if countFase st.processed "fase3_parte3_indexes" = 0 then
    let ps1 := markFileProcessed "fase3_parte3_indexes" "INDEXES_CREATED" 0 st.processed
    ({ st with processed := ps1 },
     [.createIndexes "estabelecimentos",
      .markFile "fase3_parte3_indexes" "INDEXES_CREATED" 0])
  else (st, [])

/-- FASE 3 PARTE 4: drop the three staging tables, checkpointed. -/
def fase3Parte4 (st : LoadState) : LoadState × List Ev :=
  if countFase st.processed "fase3_parte4_cleanup" = 0 then
    let ps1 := markFileProcessed "fase3_parte4_cleanup" "STAGING_DROPPED" 0 st.processed
    let st' := { st with stagingEstabTableExists := false,
                         empresasTableExists := false,
                         simplesTableExists := false, stagingEstab := [],
                         empRows := 0, simRows := 0, processed := ps1 }
    (st',
     [.dropTable "staging_estabelecimentos", .dropTable "staging_empresas",
      .dropTable "staging_simples",
      .markFile "fase3_parte4_cleanup" "STAGING_DROPPED" 0])
  else (st, [])

/-- FASE 3 (`_load_estabelecimentos_phase`): parts 1-4; an error in
PARTE 2 aborts the phase. -/
def loadEstabPhase (files : List InputFile) (st : LoadState) :
    LoadState × List Ev × Option String :=
  match fase3Parte2 (fase3Parte1 files st).1 with
  | (st2, tr2, some e) => (st2, (fase3Parte1 files st).2 ++ tr2, some e)
  | (st2, tr2, none) =>
      let r3 := fase3Parte3 st2
      let r4 := fase3Parte4 r3.1
      (r4.1, (fase3Parte1 files st).2 ++ tr2 ++ r3.2 ++ r4.2, none)

def isEmpresasFile (f : InputFile) : Bool := containsSub f.name "EMPRECSV"

def isSimplesFile (f : InputFile) : Bool :=
  containsSub f.name "SIMPLES" || containsSub f.name "SIMECSV"

def isEstabFile (f : InputFile) : Bool := containsSub f.name "ESTABELE"

def isSociosFile (f : InputFile) : Bool := containsSub f.name "SOCIO"

/-- The final cleanup of `load_files`: drop staging and control
tables and remove the release's raw and staging directories
(unconditionally). -/
def finalCleanup (st : LoadState) : LoadState × List Ev :=
  let st' := { st with empresasTableExists := false,
                       simplesTableExists := false,
                       stagingEstabTableExists := false, stagingEstab := [],
                       empRows := 0, simRows := 0,
                       controlTablesExist := false, processed := [],
                       rawDirExists := false, stagingDirExists := false }
  (st',
   [.dropTable "staging_empresas", .dropTable "staging_simples",
    .dropTable "staging_estabelecimentos", .dropTable "import_checkpoints",
    .dropTable "import_files_processed"] ++
    (if st.rawDirExists then [Ev.rmTree "raw"] else []) ++
    (if st.stagingDirExists then [Ev.rmTree "staging"] else []))

/-- FASE 4 plus the final cleanup (the tail of `load_files` after a
successful FASE 3 or a skipped one). -/
def fase4AndCleanup (snap4 : Bool) (sociosFiles : List InputFile)
    (st : LoadState) : LoadState × List Ev :=
  let r :=
    if !snap4 then
      let r := loadSociosPhase sociosFiles st
      ({ r.1 with cp4 := true }, r.2 ++ [Ev.markPhase "fase4_socios"])
    else (st, [])
  let rc := finalCleanup r.1
  (rc.1, r.2 ++ rc.2)

/-- FASE 1 dispatch of `load_files`: run and mark the phase unless
its snapshot boolean is set. -/
def fase1Step (snap1 : Bool) (empresasFiles : List InputFile)
    (st : LoadState) : LoadState × List Ev :=
  if !snap1 then
    let r := loadEmpresasPhase empresasFiles st
    ({ r.1 with cp1 := true }, r.2 ++ [Ev.markPhase "fase1_empresas"])
  else (st, [])

/-- FASE 2 dispatch of `load_files`. -/
def fase2Step (snap2 : Bool) (simplesFiles : List InputFile)
    (st : LoadState) : LoadState × List Ev :=
  if !snap2 then
    let r := loadSimplesPhase simplesFiles st
    ({ r.1 with cp2 := true }, r.2 ++ [Ev.markPhase "fase2_simples"])
  else (st, [])

/-- The pre-FASE-3 validation guard of `load_files`: when FASE 1 or
FASE 2 was already checkpointed but a staging table is missing,
invalidate their file checkpoints and re-run both phases. -/
def guardStep (snap1 snap2 snap3 : Bool)
    (empresasFiles simplesFiles : List InputFile) (st : LoadState) :
    LoadState × List Ev :=
  if !snap3 && (snap1 || snap2) then
    if !(st.empresasTableExists && st.simplesTableExists) then
      let ps := st.processed.filter
        (fun e => e.1 ≠ "fase1_empresas" ∧ e.1 ≠ "fase2_simples")
      let r1 := loadEmpresasPhase empresasFiles { st with processed := ps }
      let r1' := { r1.1 with cp1 := true }
      let r2 := loadSimplesPhase simplesFiles r1'
      ({ r2.1 with cp2 := true },
       r1.2 ++ [Ev.markPhase "fase1_empresas"] ++ r2.2 ++
         [Ev.markPhase "fase2_simples"])
    else (st, [])
  else (st, [])

/-- FASE 3 dispatch of `load_files`: skipped when checkpointed; a
PARTE 2 error propagates and the phase boolean stays unset. -/
def fase3Step (snap3 : Bool) (estabFiles : List InputFile)
    (st : LoadState) : LoadState × List Ev × Option String :=
  if snap3 then (st, [], none)
  else
    let r3 := loadEstabPhase estabFiles st
    match r3.2.2 with
    | some e => (r3.1, r3.2.1, some e)
    | none =>
        ({ r3.1 with cp3 := true },
         r3.2.1 ++ [Ev.markPhase "fase3_estabelecimentos"], none)

/-- FASE 1, FASE 2 and the validation guard of `load_files`. -/
def preFase3 (files : List InputFile) (st : LoadState) : LoadState × List Ev :=
  let rA := fase1Step st.cp1 (files.filter isEmpresasFile) st
  let rB := fase2Step st.cp2 (files.filter isSimplesFile) rA.1
  let rC := guardStep st.cp1 st.cp2 st.cp3
    (files.filter isEmpresasFile) (files.filter isSimplesFile) rB.1
  (rC.1, rA.2 ++ rB.2 ++ rC.2)

/-- `LoaderV3.load_files`: the four checkpointed phases, the
pre-FASE-3 staging-table validation guard, and the final cleanup.
The checkpoint dictionary is read once at entry (the `st.cp*`
snapshots), exactly as the source reads `checkpoint` once.  An
empty file list returns immediately. -/
def loadFiles (files : List InputFile) (st : LoadState) :
    LoadState × List Ev × Option String :=
  if files.isEmpty then (st, [], none)
  else
    match fase3Step st.cp3 (files.filter isEstabFile) (preFase3 files st).1 with
    | (st3, tr3, some e) => (st3, (preFase3 files st).2 ++ tr3, some e)
    | (st3, tr3, none) =>
        let rE := fase4AndCleanup st.cp4 (files.filter isSociosFile) st3
        (rE.1, (preFase3 files st).2 ++ tr3 ++ rE.2, none)

/-- `Pipeline._cleanup`: remove each directory iff its flag is set. -/
def pipelineCleanup (cleanupRaw cleanupStaging : Bool) (st : LoadState) :
    LoadState :=
  { st with
    rawDirExists := if cleanupRaw then false else st.rawDirExists,
    stagingDirExists := if cleanupStaging then false else st.stagingDirExists }

/-- The body `Pipeline.run` executes when not short-circuiting:
download and extract (already materialised as `files`),
`load_files`, then `_cleanup`. -/
def pipelineBody (files : List InputFile)
    (cleanupRaw cleanupStaging : Bool) (st : LoadState) :
    LoadState × Option String :=
  let r := loadFiles files st
  match r.2.2 with
  | some e => (r.1, some e)
  | none => (pipelineCleanup cleanupRaw cleanupStaging r.1, none)

/-- The state before any run of a new release. -/
def freshState : LoadState :=
  { empRows := 0, simRows := 0, stagingEstab := [], estabFinal := [],
    sociosRows := 0, empresasTableExists := false, simplesTableExists := false,
    stagingEstabTableExists := false, estabTableExists := false,
    processed := [], cp1 := false, cp2 := false, cp3 := false, cp4 := false,
    controlTablesExist := true, rawDirExists := true, stagingDirExists := true }

/-- The state after a fresh FASE 1 with no pending empresas files. -/
def stFase1Done : LoadState :=
  { freshState with empresasTableExists := true, cp1 := true }

/-- The state after FASE 2 in such a run. -/
def stFase2Done (sf : List InputFile) : LoadState :=
  { (loadSimplesPhase sf stFase1Done).1 with cp2 := true }

/-- The FASE 3 PARTE 1 result in such a run. -/
def parte1Run (sf ef : List InputFile) : LoadState × List Ev :=
  fase3Parte1 ef (stFase2Done sf)

instance : DecidableEq (Except String String) := fun a b =>
  match a, b with
  | .ok x, .ok y =>
      if h : x = y then isTrue (by rw [h])
      else isFalse (fun hh => by cases hh; exact h rfl)
  | .error x, .error y =>
      if h : x = y then isTrue (by rw [h])
      else isFalse (fun hh => by cases hh; exact h rfl)
  | .ok _, .error _ => isFalse (fun hh => by cases hh)
  | .error _, .ok _ => isFalse (fun hh => by cases hh)

/-- The spec's happy-path seed release, one row per dataset. -/
def seedFiles : List InputFile :=
  [⟨"K1.EMPRECSV", [["12345678", "ACME", "2062", "05", "1000,50", "03", ""]]⟩,
   ⟨"K1.SIMECSV", [["12345678", "S", "20200101", "", "N", "", ""]]⟩,
   ⟨"K1.ESTABELE", [["12345678", "1", "23", "", "", "2"] ++ List.replicate 24 ""]⟩,
   ⟨"K1.SOCIOCSV", [["12345678", "2", "JOHN DOE", "111", "22", "0", "20200101",
     "", "", "", "", "8"]]⟩]

/-! ## Theorems -/

/-! Basic length facts. -/

theorem zfill_length (w : Nat) (s : String) :
    (zfill w s).length = max w s.length := by
  rcases s with ⟨cs⟩
  have hlen : (String.mk cs).length = cs.length := rfl
  unfold zfill
  rw [hlen]
  by_cases h : w ≤ cs.length
  · rw [if_pos h, hlen]; omega
  · rw [if_neg h]
    match cs with
    | [] => simp [String.length]
    | c :: rest =>
        simp only [String.length] at h ⊢
        by_cases hc : (c = '+' || c = '-') = true
        · rw [if_pos hc]; simp [String.length]; omega
        · rw [if_neg hc]; simp [String.length]; omega

theorem zfill_length_ge (w : Nat) (s : String) : w ≤ (zfill w s).length := by
  rw [zfill_length]; omega

/-! Helper lemmas about NUL-free strings. -/

theorem cleanNullBytes_eq_self {s : String}
    (h : ∀ c ∈ s.data, c ≠ '\x00') : cleanNullBytes s = s := by
  unfold cleanNullBytes
  rcases s with ⟨cs⟩
  congr 1
  apply List.filter_eq_self.mpr
  intro a ha
  simpa using h a ha

theorem mem_pyStrip {s : String} {c : Char} (h : c ∈ (pyStrip s).data) :
    c ∈ s.data := by
  unfold pyStrip at h
  simp only [List.mem_reverse] at h
  have h1 := (List.dropWhile_sublist (l := (s.data.dropWhile isPySpace).reverse)
    (p := isPySpace)).mem h
  simp only [List.mem_reverse] at h1
  exact (List.dropWhile_sublist (l := s.data) (p := isPySpace)).mem h1

theorem mem_zfill {w : Nat} {s : String} {c : Char}
    (h : c ∈ (zfill w s).data) : c = '0' ∨ c ∈ s.data := by
  unfold zfill at h
  rcases s with ⟨cs⟩
  by_cases hw : w ≤ cs.length
  · rw [if_pos hw] at h; exact Or.inr h
  · rw [if_neg hw] at h
    match cs with
    | [] =>
        simp only [List.mem_append] at h
        rcases List.eq_of_mem_replicate h with rfl
        exact Or.inl rfl
    | a :: rest =>
        simp only at h
        by_cases ha : (a = '+' || a = '-') = true
        · rw [if_pos ha] at h
          simp only [List.mem_cons, List.mem_append] at h
          rcases h with rfl | h | h
          · exact Or.inr (List.mem_cons_self _ _)
          · exact Or.inl (List.eq_of_mem_replicate h)
          · exact Or.inr (List.mem_cons_of_mem _ h)
        · rw [if_neg ha] at h
          simp only [List.mem_append] at h
          rcases h with h | h
          · exact Or.inl (List.eq_of_mem_replicate h)
          · exact Or.inr h

theorem mem_replaceCommaDot {s : String} {c : Char}
    (h : c ∈ (replaceCommaDot s).data) : c = '.' ∨ c ∈ s.data := by
  unfold replaceCommaDot at h
  simp only [List.mem_map] at h
  obtain ⟨a, ha, rfl⟩ := h
  by_cases hc : a = ','
  · simp [hc]
  · simp [hc, ha]

theorem pyFloat_zero_getD : (pyFloat "0").getD 0 = 0 := by
  have h : pyFloat "0" =
      some (((1 : Int) : ℚ) * ((digitsVal ['0'] : Nat) : ℚ) / 10 ^ (0 : Nat)) := rfl
  rw [h]
  have h0 : digitsVal ['0'] = 0 := by decide
  rw [h0]
  norm_num

/-! ## Claim theorems: row-level parsing -/

/-- C1: for every estabelecimentos CSV row that is loaded into
staging (kept by the filter and fitting the `VARCHAR(14)` key
column), the computed `cnpj14` is the concatenation of `cnpj_basico`
zero-padded to 8, `cnpj_ordem` zero-padded to 4 and `cnpj_dv`
zero-padded to 2, and its length is exactly 14. -/
theorem estab_cnpj14_composition (row : List String)
    (_hkept : estabRowKept row = true)
    (hfit : (buildEstabRow row).cnpj14.length ≤ 14) :
    (buildEstabRow row).cnpj14 =
      (buildEstabRow row).cnpj_basico ++ (buildEstabRow row).cnpj_ordem ++
        (buildEstabRow row).cnpj_dv
    ∧ (buildEstabRow row).cnpj14 =
        zfill 8 (pyStrip (row.getD 0 "")) ++ zfill 4 (pyStrip (row.getD 1 "")) ++
          zfill 2 (pyStrip (row.getD 2 ""))
    ∧ (buildEstabRow row).cnpj14.length = 14 := by
  refine ⟨rfl, rfl, ?_⟩
  have e : (buildEstabRow row).cnpj14 =
      zfill 8 (pyStrip (row.getD 0 "")) ++ zfill 4 (pyStrip (row.getD 1 "")) ++
        zfill 2 (pyStrip (row.getD 2 "")) := rfl
  rw [e] at hfit ⊢
  have h1 := zfill_length_ge 8 (pyStrip (row.getD 0 ""))
  have h2 := zfill_length_ge 4 (pyStrip (row.getD 1 ""))
  have h3 := zfill_length_ge 2 (pyStrip (row.getD 2 ""))
  simp only [String.length_append] at hfit ⊢
  omega

/-- Witness for `estab_cnpj14_composition` at a concrete kept row. -/
theorem estab_cnpj14_composition_witness :
    estabRowKept (["12345678", "1", "23", "", "", "2"] ++ List.replicate 24 "") = true
    ∧ (buildEstabRow (["12345678", "1", "23", "", "", "2"] ++
        List.replicate 24 "")).cnpj14.length ≤ 14
    ∧ (buildEstabRow (["12345678", "1", "23", "", "", "2"] ++
        List.replicate 24 "")).cnpj14 = "12345678000123" :=
  ⟨by decide, by decide,
    ((estab_cnpj14_composition _ (by decide) (by decide)).2.1).trans (by decide)⟩

/-- C2: a ≥30-field estabelecimentos row is dropped iff its parsed
`situacao_cadastral` is exactly `"08"`; a raw status field of `""`
or `"2"` is kept. -/
theorem estab_situacao_filter (row : List String) (h30 : 30 ≤ row.length) :
    (streamEstabRows [row] = [] ↔ situacaoParsed row = "08")
    ∧ (streamEstabRows [row] = [buildEstabRow row] ↔ situacaoParsed row ≠ "08")
    ∧ (row.getD 5 "" = "" ∨ row.getD 5 "" = "2" →
        streamEstabRows [row] = [buildEstabRow row]) := by
  have hlen : ¬ row.length < 30 := by omega
  by_cases h08 : situacaoParsed row = "08"
  · have hk : estabRowKept row = false := by
      simp [estabRowKept, h08]
    refine ⟨by simp [streamEstabRows, hk, h08], by simp [streamEstabRows, hk, h08], ?_⟩
    intro hv
    exfalso
    rcases hv with hv | hv <;> rw [show situacaoParsed row =
        (if (if row.getD 5 "" ≠ "" then splitDot0 (pyStrip (row.getD 5 "")) else "") ≠ ""
         then pyTake 2 (if row.getD 5 "" ≠ "" then splitDot0 (pyStrip (row.getD 5 "")) else "")
         else "") from rfl, hv] at h08 <;> revert h08 <;> decide
  · have hk : estabRowKept row = true := by
      simp [estabRowKept, hlen, h08]
    refine ⟨by simp [streamEstabRows, hk, h08], by simp [streamEstabRows, hk, h08], ?_⟩
    intro _
    simp [streamEstabRows, hk]

/-- Witness for `estab_situacao_filter`: a kept row with raw status `"2"`. -/
theorem estab_situacao_filter_witness :
    30 ≤ (["12345678", "1", "23", "", "", "2"] ++ List.replicate 24 "").length
    ∧ streamEstabRows [["12345678", "1", "23", "", "", "2"] ++ List.replicate 24 ""] =
        [buildEstabRow (["12345678", "1", "23", "", "", "2"] ++ List.replicate 24 "")] :=
  ⟨by decide,
    (estab_situacao_filter _ (by decide)).2.2 (by decide)⟩

/-- C4 counterexample: a 5-field socios row is processed although the
claim (11-field minimum for socios) says it must be rejected; and a
30-field estabelecimentos row with status `"08"` is rejected although
it is not shorter than 30 fields. -/
theorem row_min_length_cx :
    (sociosRowAccepted ["1", "2", "3", "4", "5"] = true
      ∧ (["1", "2", "3", "4", "5"] : List String).length < 11)
    ∧ (estabRowKept (["", "", "", "", "", "08"] ++ List.replicate 24 "") = false
      ∧ 30 ≤ (["", "", "", "", "", "08"] ++ List.replicate 24 "").length) := by
  decide

/-- C4 amended: a row is skipped for being short exactly when it has
fewer than 7 fields (empresas, simples), 5 fields (socios) or 30
fields (estabelecimentos); estabelecimentos rows are additionally
dropped when their parsed status is `"08"`. -/
theorem row_min_length_thresholds (row : List String) :
    (empresasRowAccepted row = true ↔ 7 ≤ row.length)
    ∧ (simplesRowAccepted row = true ↔ 7 ≤ row.length)
    ∧ (sociosRowAccepted row = true ↔ 5 ≤ row.length)
    ∧ (estabRowKept row = true ↔ 30 ≤ row.length ∧ situacaoParsed row ≠ "08") := by
  refine ⟨?_, ?_, ?_, ?_⟩
  · simp [empresasRowAccepted]
  · simp [simplesRowAccepted]
  · cases row with
    | nil => simp [sociosRowAccepted]
    | cons a as =>
        simp only [sociosRowAccepted, List.isEmpty_cons, Bool.false_or,
          Bool.not_eq_true', decide_eq_false_iff_not, Nat.not_lt, List.length_cons]
  · simp only [estabRowKept, Bool.and_eq_true, Bool.not_eq_true',
      decide_eq_false_iff_not, Nat.not_lt, ne_eq, decide_not, Bool.not_eq_true,
      decide_eq_false_iff_not]

/-- C5 counterexample: the loader zero-pads `row[0].strip()` without
removing non-digit characters, so on first field `"1A2"` the stored
key differs from the claim's strip-non-digits reading. -/
theorem empresas_cnpj_strip_cx :
    (buildEmpresaRow ["1A2", "", "", "", "", "", ""]).cnpj_basico = "000001A2"
    ∧ claimCnpjBasico "1A2" = "00000012"
    ∧ (buildEmpresaRow ["1A2", "", "", "", "", "", ""]).cnpj_basico ≠
        claimCnpjBasico "1A2" := by
  decide

/-- C5 amended: `cnpj_basico` is the first field whitespace-stripped,
left-zero-padded to 8, and then cleared of NUL bytes — non-digit
characters other than NUL are kept; `capital_social` is the decimal
parsed from field 4 with `','` replaced by `'.'` and NUL bytes
removed, with 0 for an empty field and 0 when parsing fails. -/
theorem empresas_row_parse (row : List String) (_h7 : 7 ≤ row.length) :
    (buildEmpresaRow row).cnpj_basico =
        cleanNullBytes (zfill 8 (pyStrip (row.getD 0 "")))
    ∧ (row.getD 4 "" = "" → (buildEmpresaRow row).capital_social = 0)
    ∧ (∀ q : ℚ, pyFloat (cleanNullBytes (replaceCommaDot (row.getD 4 ""))) = some q →
        (buildEmpresaRow row).capital_social = q)
    ∧ (pyFloat (cleanNullBytes (replaceCommaDot (row.getD 4 ""))) = none →
        (buildEmpresaRow row).capital_social = 0) := by
  have hcap : (buildEmpresaRow row).capital_social =
      (pyFloat (cleanNullBytes (if row.getD 4 "" ≠ "" then
        replaceCommaDot (row.getD 4 "") else "0"))).getD 0 := rfl
  refine ⟨rfl, ?_, ?_, ?_⟩
  · intro hempty
    rw [hcap, hempty, if_neg (by decide),
      show cleanNullBytes "0" = "0" from by decide]
    exact pyFloat_zero_getD
  · intro q hq
    by_cases hempty : row.getD 4 "" = ""
    · rw [hempty, show replaceCommaDot "" = "" from rfl,
        show cleanNullBytes "" = "" from rfl,
        show pyFloat "" = (none : Option ℚ) from by decide] at hq
      cases hq
    · rw [hcap, if_pos hempty, hq]
      rfl
  · intro hq
    by_cases hempty : row.getD 4 "" = ""
    · rw [hcap, hempty, if_neg (by decide),
        show cleanNullBytes "0" = "0" from by decide]
      exact pyFloat_zero_getD
    · rw [hcap, if_pos hempty, hq]
      rfl

/-! Digit-string order transfer lemmas. -/

theorem isDig_iff {c : Char} : isDig c = true ↔ 48 ≤ c.toNat ∧ c.toNat ≤ 57 := by
  simp [isDig]

theorem digitsVal_lt_pow {cs : List Char} (h : ∀ c ∈ cs, isDig c = true) :
    digitsVal cs < 10 ^ cs.length := by
  induction cs with
  | nil => simp [digitsVal]
  | cons c cs ih =>
      have hc := isDig_iff.mp (h c (List.mem_cons_self _ _))
      have ih' := ih (fun x hx => h x (List.mem_cons_of_mem _ hx))
      have hd : dval c ≤ 9 := by unfold dval; omega
      have hmul : dval c * 10 ^ cs.length ≤ 9 * 10 ^ cs.length :=
        Nat.mul_le_mul_right _ hd
      simp only [digitsVal, List.length_cons, pow_succ]
      omega

theorem char_lt_iff_dval {a b : Char} (ha : isDig a = true) (hb : isDig b = true) :
    a < b ↔ dval a < dval b := by
  have ha' := isDig_iff.mp ha
  have hb' := isDig_iff.mp hb
  rw [show (a < b ↔ a.toNat < b.toNat) from Iff.rfl]
  unfold dval
  omega

theorem char_eq_of_dval_eq {a b : Char} (ha : isDig a = true) (hb : isDig b = true)
    (h : dval a = dval b) : a = b := by
  have hab : ¬ a < b := by rw [char_lt_iff_dval ha hb]; omega
  have hba : ¬ b < a := by rw [char_lt_iff_dval hb ha]; omega
  exact le_antisymm (not_lt.mp hba) (not_lt.mp hab)

theorem digitsVal_head_lt {a b : Char} {as bs : List Char}
    (hlen : as.length = bs.length) (ha : ∀ c ∈ as, isDig c = true)
    (hab : dval a < dval b) :
    digitsVal (a :: as) < digitsVal (b :: bs) := by
  have h1 : digitsVal as < 10 ^ as.length := digitsVal_lt_pow ha
  have h2 : (dval a + 1) * 10 ^ as.length ≤ dval b * 10 ^ as.length :=
    Nat.mul_le_mul_right _ hab
  rw [Nat.succ_mul] at h2
  simp only [digitsVal]
  rw [← hlen]
  omega

theorem lexLt_iff_digitsVal {s t : List Char} (hlen : s.length = t.length)
    (hs : ∀ c ∈ s, isDig c = true) (ht : ∀ c ∈ t, isDig c = true) :
    lexLt s t = true ↔ digitsVal s < digitsVal t := by
  induction s generalizing t with
  | nil =>
      cases t with
      | nil => simp [lexLt, digitsVal]
      | cons b bs => simp at hlen
  | cons a as ih =>
      cases t with
      | nil => simp at hlen
      | cons b bs =>
          have hlen' : as.length = bs.length := by
            simpa using hlen
          have ha := hs a (List.mem_cons_self _ _)
          have hb := ht b (List.mem_cons_self _ _)
          have has := fun x hx => hs x (List.mem_cons_of_mem _ hx)
          have hbs := fun x hx => ht x (List.mem_cons_of_mem _ hx)
          by_cases hab : a = b
          · subst hab
            rw [show lexLt (a :: as) (a :: bs) = lexLt as bs from by
              simp [lexLt]]
            rw [ih hlen' has hbs]
            simp only [digitsVal, hlen']
            omega
          · rw [show lexLt (a :: as) (b :: bs) = decide (a < b) from by
              simp [lexLt, hab]]
            rw [decide_eq_true_iff, char_lt_iff_dval ha hb]
            constructor
            · intro h
              exact digitsVal_head_lt hlen' has h
            · intro h
              rcases Nat.lt_trichotomy (dval a) (dval b) with hv | hv | hv
              · exact hv
              · exact absurd (char_eq_of_dval_eq ha hb hv) hab
              · exact absurd (digitsVal_head_lt hlen'.symm hbs hv) (by omega)

theorem strLtB_iff {v w : String} (hlen : v.length = w.length)
    (hv : v.data.all isDig = true) (hw : w.data.all isDig = true) :
    strLtB v w = true ↔ strVal v < strVal w := by
  unfold strLtB strVal
  exact lexLt_iff_digitsVal hlen (by simpa [List.all_eq_true] using hv)
    (by simpa [List.all_eq_true] using hw)

theorem strLeB_iff {v w : String} (hlen : v.length = w.length)
    (hv : v.data.all isDig = true) (hw : w.data.all isDig = true) :
    strLeB v w = true ↔ strVal v ≤ strVal w := by
  unfold strLeB
  rw [Bool.not_eq_true']
  rw [show (lexLt w.data v.data = false) ↔ ¬ (lexLt w.data v.data = true) from by simp]
  rw [lexLt_iff_digitsVal hlen.symm (by simpa [List.all_eq_true] using hw)
    (by simpa [List.all_eq_true] using hv)]
  unfold strVal
  omega

/-! `pad8` facts. -/

theorem natDigit_toNat (k : Nat) : (natDigit k).toNat = 48 + k % 10 := by
  have h : k % 10 < 10 := Nat.mod_lt _ (by omega)
  unfold natDigit
  generalize hm : k % 10 = m at h ⊢
  interval_cases m <;> decide

theorem isDig_natDigit (k : Nat) : isDig (natDigit k) = true := by
  have h : k % 10 < 10 := Nat.mod_lt _ (by omega)
  rw [isDig_iff, natDigit_toNat]
  omega

theorem dval_natDigit (k : Nat) : dval (natDigit k) = k % 10 := by
  unfold dval
  rw [natDigit_toNat]
  omega

theorem pad8_length (m : Nat) : (pad8 m).length = 8 := rfl

theorem pad8_digits (m : Nat) : (pad8 m).data.all isDig = true := by
  simp [pad8, isDig_natDigit]

theorem strVal_pad8 {m : Nat} (hm : m < 100000000) : strVal (pad8 m) = m := by
  show digitsVal [natDigit (m / 10000000), natDigit (m / 1000000),
    natDigit (m / 100000), natDigit (m / 10000), natDigit (m / 1000),
    natDigit (m / 100), natDigit (m / 10), natDigit m] = m
  simp only [digitsVal, dval_natDigit, List.length_cons, List.length_nil]
  norm_num
  omega

/-- C3: the consolidation partitions the 8-digit `cnpj_basico`
keyspace into 100 fixed chunks: for `n < 99` chunk `n` holds exactly
the values `v` with `pad8 (n*10^6) ≤ v < pad8 ((n+1)*10^6)`, chunk
99 is inclusive on both ends, and every 8-digit value lies in
exactly one chunk. -/
theorem chunk_partition (n : Nat) (hn : n < 100) (v : String)
    (hv : isDigits8 v = true) :
    (inChunk n v = true ↔
      n * 1000000 ≤ strVal v ∧
        (if n = 99 then strVal v ≤ 99999999 else strVal v < (n + 1) * 1000000))
    ∧ (∃! m, m < 100 ∧ inChunk m v = true) := by
  have hvlen : v.length = 8 := by
    simp only [isDigits8, Bool.and_eq_true, decide_eq_true_iff] at hv
    exact hv.1
  have hvdig : v.data.all isDig = true := by
    simp only [isDigits8, Bool.and_eq_true] at hv
    exact hv.2
  have hvub : strVal v < 100000000 := by
    have := @digitsVal_lt_pow v.data (by simpa [List.all_eq_true] using hvdig)
    have hlen8 : v.data.length = 8 := hvlen
    rw [hlen8] at this
    exact lt_of_lt_of_le this (by norm_num)
  have key : ∀ k, k < 100 → (inChunk k v = true ↔
      k * 1000000 ≤ strVal v ∧
        (if k = 99 then strVal v ≤ 99999999 else strVal v < (k + 1) * 1000000)) := by
    intro k hk
    by_cases h99 : k = 99
    · subst h99
      rw [if_pos rfl]
      unfold inChunk chunkRangeStart chunkRangeEnd
      rw [if_pos rfl, if_pos rfl, Bool.and_eq_true]
      rw [strLeB_iff (by rw [pad8_length, hvlen]) (pad8_digits _) hvdig]
      rw [strLeB_iff (v := v) (by rw [hvlen]; rfl) hvdig (by decide)]
      rw [strVal_pad8 (by norm_num)]
      rw [show strVal "99999999" = 99999999 from by decide]
    · rw [if_neg h99]
      unfold inChunk chunkRangeStart chunkRangeEnd
      rw [if_neg h99, if_neg h99, Bool.and_eq_true]
      rw [strLeB_iff (by rw [pad8_length, hvlen]) (pad8_digits _) hvdig]
      rw [strLtB_iff (by rw [pad8_length, hvlen]) hvdig (pad8_digits _)]
      rw [strVal_pad8 (by omega), strVal_pad8 (by omega)]
  refine ⟨key n hn, ?_⟩
  refine ⟨strVal v / 1000000, ⟨by omega, ?_⟩, ?_⟩
  · rw [key _ (by omega)]
    constructor
    · omega
    · by_cases h99 : strVal v / 1000000 = 99
      · rw [if_pos h99]; omega
      · rw [if_neg h99]; omega
  · intro y hy
    rw [key y hy.1] at hy
    rcases hy with ⟨hy1, hy2, hy3⟩
    by_cases h99 : y = 99
    · rw [if_pos h99] at hy3; omega
    · rw [if_neg h99] at hy3; omega

/-- Witness for `chunk_partition` at chunk 0 and the spec's boundary
values: `"00999999"` falls in chunk 0, `"01000000"` in chunk 1, and
`"99999999"` in chunk 99. -/
theorem chunk_partition_witness :
    (0 < 100 ∧ isDigits8 "00999999" = true
      ∧ ((inChunk 0 "00999999" = true ↔
          0 * 1000000 ≤ strVal "00999999" ∧
            (if 0 = 99 then strVal "00999999" ≤ 99999999
             else strVal "00999999" < (0 + 1) * 1000000))
        ∧ ∃! m, m < 100 ∧ inChunk m "00999999" = true))
    ∧ inChunk 0 "00999999" = true ∧ inChunk 1 "00999999" = false
    ∧ inChunk 1 "01000000" = true ∧ inChunk 0 "01000000" = false
    ∧ inChunk 99 "99999999" = true :=
  ⟨⟨by decide, by decide, chunk_partition 0 (by decide) "00999999" (by decide)⟩,
    by decide, by decide, by decide, by decide, by decide⟩

/-- Witness for `empresas_row_parse` at a seed row carrying NUL bytes
in fields 0 and 4 (the bytes are removed after padding and before
`float` respectively). -/
theorem empresas_row_parse_witness :
    7 ≤ (["12345678\x00", "ACME", "2062", "05", "1000,50\x00", "03", ""] : List String).length
    ∧ ((buildEmpresaRow ["12345678\x00", "ACME", "2062", "05", "1000,50\x00", "03", ""]).cnpj_basico =
        cleanNullBytes (zfill 8 (pyStrip (["12345678\x00", "ACME", "2062", "05", "1000,50\x00", "03", ""].getD 0 "")))
      ∧ ((["12345678\x00", "ACME", "2062", "05", "1000,50\x00", "03", ""].getD 4 "") = "" →
          (buildEmpresaRow ["12345678\x00", "ACME", "2062", "05", "1000,50\x00", "03", ""]).capital_social = 0)
      ∧ (∀ q : ℚ,
          pyFloat (cleanNullBytes (replaceCommaDot (["12345678\x00", "ACME", "2062", "05", "1000,50\x00", "03", ""].getD 4 ""))) = some q →
          (buildEmpresaRow ["12345678\x00", "ACME", "2062", "05", "1000,50\x00", "03", ""]).capital_social = q)
      ∧ (pyFloat (cleanNullBytes (replaceCommaDot (["12345678\x00", "ACME", "2062", "05", "1000,50\x00", "03", ""].getD 4 ""))) = none →
          (buildEmpresaRow ["12345678\x00", "ACME", "2062", "05", "1000,50\x00", "03", ""]).capital_social = 0)) :=
  ⟨by decide, empresas_row_parse _ (by decide)⟩

theorem findRelease_startRelease (now : Nat) (r : String)
    (rs : List DataVersion) :
    ∃ v, findRelease r (startRelease now r rs) = some v ∧ v.release = r
      ∧ v.status = .running ∧ v.startedAt = now ∧ v.finishedAt = none
      ∧ v.note = none := by
  induction rs with
  | nil =>
      refine ⟨⟨r, .running, now, none, none⟩, ?_⟩
      simp [startRelease, findRelease]
  | cons w ws ih =>
      by_cases hw : w.release = r
      · refine ⟨{ w with status := IngestionStatus.running, startedAt := now, finishedAt := none, note := none }, ?_⟩
        simp [startRelease, findRelease, hw]
      · obtain ⟨v, hfind, hrest⟩ := ih
        exact ⟨v, by simp [startRelease, findRelease, hw, hfind], hrest⟩

theorem findRelease_finishRelease (now : Nat) (r : String) (success : Bool)
    (note : Option String) (rs : List DataVersion) :
    findRelease r (finishRelease now r success note rs) =
      (findRelease r rs).map fun v =>
        { v with status := if success then IngestionStatus.completed
                           else IngestionStatus.failed,
                 finishedAt := some now, note := note } := by
  induction rs with
  | nil => simp [finishRelease, findRelease]
  | cons w ws ih =>
      by_cases hw : w.release = r
      · simp [finishRelease, findRelease, hw]
      · simp [finishRelease, findRelease, hw, ih]

/-- C7: calling `Pipeline.run` when the most recently started
registry row is the target release with status `completed` is a
no-op: it returns the target, does not invoke the body (no
download, extraction or load), and leaves the registry and all
collaborator state unchanged. -/
theorem pipeline_rerun_noop {σ : Type} (now : Nat)
    (body : σ → σ × Option String) (target : String)
    (reg : List DataVersion) (fs : σ) (cur : DataVersion)
    (hcur : currentRelease reg = some cur) (hrel : cur.release = target)
    (hst : cur.status = .completed) :
    pipelineRun now body target reg fs = ⟨reg, fs, .ok target⟩ := by
  have hsc : alreadyCompleted target reg = true := by
    unfold alreadyCompleted
    rw [hcur]
    simp [hrel, hst]
  unfold pipelineRun
  rw [hsc]
  simp

/-- Witness for `pipeline_rerun_noop`. -/
theorem pipeline_rerun_noop_witness :
    currentRelease [⟨"2024-01", .completed, 3, some 4, none⟩] =
        some ⟨"2024-01", .completed, 3, some 4, none⟩
    ∧ pipelineRun 7 (fun s : Nat => (s + 1, none)) "2024-01"
        [⟨"2024-01", .completed, 3, some 4, none⟩] 0 =
      ⟨[⟨"2024-01", .completed, 3, some 4, none⟩], 0, .ok "2024-01"⟩ :=
  ⟨by decide,
    pipeline_rerun_noop 7 (fun s : Nat => (s + 1, none)) "2024-01"
      [⟨"2024-01", .completed, 3, some 4, none⟩] 0
      ⟨"2024-01", .completed, 3, some 4, none⟩ (by decide) rfl rfl⟩

/-- C6: when the short-circuit does not apply, an exception raised
by the body makes the run record the target release as `failed`
with the exception text as note and re-raise it; a successful body
makes the run return the target release. -/
theorem pipeline_error_handling {σ : Type} (now : Nat)
    (body : σ → σ × Option String) (target : String)
    (reg : List DataVersion) (fs : σ)
    (hnoskip : alreadyCompleted target reg = false) :
    (∀ e fs', body fs = (fs', some e) →
      (pipelineRun now body target reg fs).outcome = .error e
      ∧ ∃ v, findRelease target (pipelineRun now body target reg fs).registry =
            some v ∧ v.status = .failed ∧ v.note = some e)
    ∧ (∀ fs', body fs = (fs', none) →
        (pipelineRun now body target reg fs).outcome = .ok target) := by
  have hrun : ∀ fs' r2, body fs = (fs', r2) →
      pipelineRun now body target reg fs =
        match r2 with
        | some e => ⟨finishRelease now target false (some e)
            (startRelease now target reg), fs', .error e⟩
        | none => ⟨finishRelease now target true none
            (startRelease now target reg), fs', .ok target⟩ := by
    intro fs' r2 hb
    unfold pipelineRun
    rw [hnoskip, if_neg (show ¬ (false = true) by decide), hb]
  constructor
  · intro e fs' hbody
    rw [hrun fs' (some e) hbody]
    refine ⟨rfl, ?_⟩
    obtain ⟨v, hv, hvrel, hvst, hvstart, hvfin, hvnote⟩ :=
      findRelease_startRelease now target reg
    refine ⟨{ v with status := IngestionStatus.failed, finishedAt := some now, note := some e }, ?_, rfl, rfl⟩
    show findRelease target (finishRelease now target false (some e)
      (startRelease now target reg)) = _
    rw [findRelease_finishRelease, hv]
    rfl
  · intro fs' hbody
    rw [hrun fs' none hbody]

/-- Witness for `pipeline_error_handling`: a body that raises
`"boom"` on an empty registry. -/
theorem pipeline_error_handling_witness :
    alreadyCompleted "2024-01" ([] : List DataVersion) = false
    ∧ ((pipelineRun 5 (fun s : Nat => (s + 1, some "boom")) "2024-01" [] 0).outcome =
          .error "boom"
      ∧ ∃ v, findRelease "2024-01"
            (pipelineRun 5 (fun s : Nat => (s + 1, some "boom")) "2024-01" [] 0).registry =
          some v ∧ v.status = .failed ∧ v.note = some "boom") :=
  ⟨by decide,
    (pipeline_error_handling 5 (fun s : Nat => (s + 1, some "boom")) "2024-01" [] 0
      (by decide)).1 "boom" 1 rfl⟩

/-! Checkpoint-table lemmas. -/

theorem faseEntries_cons (e : String × String × Nat)
    (l : List (String × String × Nat)) (g : String) :
    faseEntries (e :: l) g =
      (if e.1 = g then [(e.2.1, e.2.2)] else []) ++ faseEntries l g := by
  unfold faseEntries
  rw [List.filterMap_cons]
  by_cases h : e.1 = g <;> simp [h]

theorem countFase_cons (e : String × String × Nat)
    (l : List (String × String × Nat)) (g : String) :
    countFase (e :: l) g = (if e.1 = g then 1 else 0) + countFase l g := by
  unfold countFase
  rw [List.filter_cons]
  by_cases h : e.1 = g <;> simp [h, Nat.add_comm]

theorem faseEntries_markFileProcessed {g f : String} (h : g ≠ f)
    (nm : String) (n : Nat) (ps : List (String × String × Nat)) :
    faseEntries (markFileProcessed f nm n ps) g = faseEntries ps g := by
  induction ps with
  | nil => simp [markFileProcessed, faseEntries, Ne.symm h]
  | cons e es ih =>
      by_cases he : e.1 = f ∧ e.2.1 = nm
      · simp only [markFileProcessed, if_pos he]
        rw [faseEntries_cons, faseEntries_cons, he.1]
        simp [Ne.symm h]
      · simp only [markFileProcessed, if_neg he]
        rw [faseEntries_cons, faseEntries_cons, ih]

theorem countFase_markFileProcessed {g f : String} (h : g ≠ f)
    (nm : String) (n : Nat) (ps : List (String × String × Nat)) :
    countFase (markFileProcessed f nm n ps) g = countFase ps g := by
  induction ps with
  | nil => simp [markFileProcessed, countFase, Ne.symm h]
  | cons e es ih =>
      by_cases he : e.1 = f ∧ e.2.1 = nm
      · simp only [markFileProcessed, if_pos he]
        rw [countFase_cons, countFase_cons, he.1, if_neg (Ne.symm h)]
      · simp only [markFileProcessed, if_neg he]
        rw [countFase_cons, countFase_cons, ih]

theorem streamFiles_countFase {g fase : String} (h : g ≠ fase)
    (table : String) (cr : InputFile → Nat) :
    ∀ (fs : List InputFile) (ps : List (String × String × Nat)),
      countFase (streamFiles table fase cr fs ps).1 g = countFase ps g
  | [], _ => rfl
  | f :: fs, ps => by
      simp only [streamFiles]
      rw [streamFiles_countFase h table cr fs, countFase_markFileProcessed h]

theorem streamFiles_faseEntries {g fase : String} (h : g ≠ fase)
    (table : String) (cr : InputFile → Nat) :
    ∀ (fs : List InputFile) (ps : List (String × String × Nat)),
      faseEntries (streamFiles table fase cr fs ps).1 g = faseEntries ps g
  | [], _ => rfl
  | f :: fs, ps => by
      simp only [streamFiles]
      rw [streamFiles_faseEntries h table cr fs, faseEntries_markFileProcessed h]

theorem streamEstabFiles_countFase {g : String} (h : g ≠ "fase3_parte1_staging") :
    ∀ (fs : List InputFile) (ps : List (String × String × Nat)),
      countFase (streamEstabFiles fs ps).1 g = countFase ps g
  | [], _ => rfl
  | f :: fs, ps => by
      simp only [streamEstabFiles]
      rw [streamEstabFiles_countFase h fs, countFase_markFileProcessed h]

theorem streamEstabFiles_faseEntries {g : String} (h : g ≠ "fase3_parte1_staging") :
    ∀ (fs : List InputFile) (ps : List (String × String × Nat)),
      faseEntries (streamEstabFiles fs ps).1 g = faseEntries ps g
  | [], _ => rfl
  | f :: fs, ps => by
      simp only [streamEstabFiles]
      rw [streamEstabFiles_faseEntries h fs, faseEntries_markFileProcessed h]

/-! Event lemmas: each streaming phase emits only its own events. -/

theorem streamFiles_events (table fase : String) (cr : InputFile → Nat) :
    ∀ (fs : List InputFile) (ps : List (String × String × Nat)),
      ∀ e ∈ (streamFiles table fase cr fs ps).2.1,
        (∃ n, e = Ev.copyRows table n) ∨ (∃ nm n, e = Ev.markFile fase nm n)
  | [], _ => by intro e he; simp [streamFiles] at he
  | f :: fs, ps => by
      intro e he
      simp only [streamFiles, List.append_assoc, List.mem_append] at he
      rcases he with he | he | he
      · by_cases h0 : 0 < cr f
        · rw [if_pos h0] at he
          simp only [List.mem_singleton] at he
          exact Or.inl ⟨_, he⟩
        · rw [if_neg h0] at he
          simp at he
      · simp only [List.mem_singleton] at he
        exact Or.inr ⟨_, _, he⟩
      · exact streamFiles_events table fase cr fs _ e he

theorem streamEstabFiles_events :
    ∀ (fs : List InputFile) (ps : List (String × String × Nat)),
      ∀ e ∈ (streamEstabFiles fs ps).2.1,
        (∃ n, e = Ev.copyRows "staging_estabelecimentos" n)
        ∨ (∃ nm n, e = Ev.markFile "fase3_parte1_staging" nm n)
  | [], _ => by intro e he; simp [streamEstabFiles] at he
  | f :: fs, ps => by
      intro e he
      simp only [streamEstabFiles, List.append_assoc, List.mem_append] at he
      rcases he with he | he | he
      · by_cases h0 : 0 < (estabFileKeys f).length
        · rw [if_pos h0] at he
          simp only [List.mem_singleton] at he
          exact Or.inl ⟨_, he⟩
        · rw [if_neg h0] at he
          simp at he
      · simp only [List.mem_singleton] at he
        exact Or.inr ⟨_, _, he⟩
      · exact streamEstabFiles_events fs _ e he

theorem loadSimplesPhase_events (files : List InputFile) (st : LoadState) :
    ∀ e ∈ (loadSimplesPhase files st).2,
      e = Ev.truncate "staging_simples"
      ∨ (∃ n, e = Ev.copyRows "staging_simples" n)
      ∨ (∃ nm n, e = Ev.markFile "fase2_simples" nm n) := by
  intro e he
  unfold loadSimplesPhase at he
  simp only [List.mem_append] at he
  rcases he with he | he
  · split at he
    · simp only [List.mem_singleton] at he
      exact Or.inl he
    · simp at he
  · exact Or.inr (streamFiles_events _ _ _ _ _ e he)

theorem fase3Parte1_events (files : List InputFile) (st : LoadState) :
    ∀ e ∈ (fase3Parte1 files st).2,
      e = Ev.truncate "staging_estabelecimentos"
      ∨ (∃ n, e = Ev.copyRows "staging_estabelecimentos" n)
      ∨ (∃ nm n, e = Ev.markFile "fase3_parte1_staging" nm n) := by
  intro e he
  unfold fase3Parte1 at he
  simp only [List.mem_append] at he
  rcases he with he | he
  · split at he
    · simp only [List.mem_singleton] at he
      exact Or.inl he
    · simp at he
  · exact Or.inr (streamEstabFiles_events _ _ e he)

theorem applyRecovery_events (st : LoadState) :
    ∀ e ∈ (applyRecovery st).2.1,
      ∃ nm n, e = Ev.markFile "fase3_parte2_chunks" nm n := by
  intro e he
  unfold applyRecovery at he
  split at he
  · simp only [List.mem_map] at he
    obtain ⟨a, _, rfl⟩ := he
    exact ⟨a.1, a.2, rfl⟩
  · simp at he

/-! The PARTE 2 emptiness guard (C10 and the C8 correction). -/

theorem applyRecovery_empRows (st : LoadState) :
    (applyRecovery st).1.empRows = st.empRows := by
  unfold applyRecovery
  split <;> rfl

theorem applyRecovery_simRows (st : LoadState) :
    (applyRecovery st).1.simRows = st.simRows := by
  unfold applyRecovery
  split <;> rfl

/-- When PARTE 2 is not done, fewer than 100 chunks are recorded
after recovery, and a staging count is zero, the consolidation
raises instead of inserting. -/
theorem fase3Parte2_raises (st : LoadState)
    (hdone : parte2Done st = false)
    (hchunks : (applyRecovery st).2.2.length ≠ 100)
    (hempty : st.empRows = 0 ∨ st.simRows = 0) :
    fase3Parte2 st =
      ((applyRecovery st).1, (applyRecovery st).2.1,
        some (if st.empRows = 0 then fatalEmpresasMsg else fatalSimplesMsg)) := by
  unfold fase3Parte2
  rw [hdone, if_neg (show ¬ (false = true) by decide),
    if_neg hchunks]
  by_cases hemp : st.empRows = 0
  · rw [if_pos (show (applyRecovery st).1.empRows = 0 from
      (applyRecovery_empRows st).trans hemp), if_pos hemp]
  · have hsim : st.simRows = 0 := hempty.resolve_left hemp
    rw [if_neg (show ¬ (applyRecovery st).1.empRows = 0 from fun hh =>
        hemp ((applyRecovery_empRows st).symm.trans hh)),
      if_pos (show (applyRecovery st).1.simRows = 0 from
        (applyRecovery_simRows st).trans hsim), if_neg hemp]

/-- C10: when Phase 3 Part 2 is about to execute chunks (fewer than
100 chunk checkpoints after recovery) while `staging_empresas` or
`staging_simples` is empty, the loader raises a `RuntimeError`
instead of consolidating: no chunk INSERT is executed. -/
theorem parte2_empty_staging_guard (st : LoadState)
    (hdone : parte2Done st = false)
    (hchunks : (applyRecovery st).2.2.length < 100)
    (hempty : st.empRows = 0 ∨ st.simRows = 0) :
    (∃ msg, (fase3Parte2 st).2.2 = some msg
      ∧ (msg = fatalEmpresasMsg ∨ msg = fatalSimplesMsg))
    ∧ (∀ l n, Ev.chunkInsert l n ∉ (fase3Parte2 st).2.1) := by
  have h := fase3Parte2_raises st hdone (by omega) hempty
  rw [h]
  constructor
  · refine ⟨_, rfl, ?_⟩
    by_cases hemp : st.empRows = 0
    · rw [if_pos hemp]; exact Or.inl rfl
    · rw [if_neg hemp]; exact Or.inr rfl
  · intro l n hmem
    obtain ⟨nm, n', hn⟩ := applyRecovery_events st _ hmem
    exact Ev.noConfusion hn

theorem loadSimplesPhase_countFase {g : String} (h : g ≠ "fase2_simples")
    (files : List InputFile) (st : LoadState) :
    countFase (loadSimplesPhase files st).1.processed g =
      countFase st.processed g :=
  streamFiles_countFase h _ _ _ _

theorem loadSimplesPhase_faseEntries {g : String} (h : g ≠ "fase2_simples")
    (files : List InputFile) (st : LoadState) :
    faseEntries (loadSimplesPhase files st).1.processed g =
      faseEntries st.processed g :=
  streamFiles_faseEntries h _ _ _ _

theorem fase3Parte1_countFase {g : String} (h : g ≠ "fase3_parte1_staging")
    (files : List InputFile) (st : LoadState) :
    countFase (fase3Parte1 files st).1.processed g =
      countFase st.processed g :=
  streamEstabFiles_countFase h _ _

theorem fase3Parte1_faseEntries {g : String} (h : g ≠ "fase3_parte1_staging")
    (files : List InputFile) (st : LoadState) :
    faseEntries (fase3Parte1 files st).1.processed g =
      faseEntries st.processed g :=
  streamEstabFiles_faseEntries h _ _

/-- `load_files` on a nonempty list, unfolded. -/
theorem loadFiles_cons (f : InputFile) (fs : List InputFile) (st : LoadState) :
    loadFiles (f :: fs) st =
      (match fase3Step st.cp3 ((f :: fs).filter isEstabFile)
          (preFase3 (f :: fs) st).1 with
       | (st3, tr3, some e) => (st3, (preFase3 (f :: fs) st).2 ++ tr3, some e)
       | (st3, tr3, none) =>
           let rE := fase4AndCleanup st.cp4 ((f :: fs).filter isSociosFile) st3
           (rE.1, (preFase3 (f :: fs) st).2 ++ tr3 ++ rE.2, none)) := rfl

/-- C8 counterexample: a run on a nonempty file list in which every
phase has an empty pending list.  FASE 1 and FASE 2 are marked done,
but FASE 3 aborts with the PARTE 2 RuntimeError, so the fase3 and
fase4 checkpoints are never set, contradicting the claim for those
phases. -/
theorem empty_pending_phase_cx :
    (loadFiles [⟨"X.txt", []⟩] freshState).2.2 = some fatalEmpresasMsg
    ∧ (loadFiles [⟨"X.txt", []⟩] freshState).1.cp1 = true
    ∧ (loadFiles [⟨"X.txt", []⟩] freshState).1.cp2 = true
    ∧ (loadFiles [⟨"X.txt", []⟩] freshState).1.cp3 = false
    ∧ (loadFiles [⟨"X.txt", []⟩] freshState).1.cp4 = false
    ∧ Ev.markPhase "fase3_estabelecimentos" ∉ (loadFiles [⟨"X.txt", []⟩] freshState).2.1
    ∧ Ev.markPhase "fase4_socios" ∉ (loadFiles [⟨"X.txt", []⟩] freshState).2.1 := by
  decide

/-- C8 amended: on a fresh run with a nonempty file list and no
empresas files, FASE 1's empty pending list completes immediately:
the phase is marked done and no COPY into `staging_empresas` ever
happens; but the run then aborts in FASE 3 PARTE 2 with the
`staging_empresas`-empty RuntimeError, leaving fase3 and fase4
unmarked. -/
theorem empty_pending_phase (files : List InputFile)
    (hne : files ≠ []) (hemp : files.filter isEmpresasFile = []) :
    Ev.markPhase "fase1_empresas" ∈ (loadFiles files freshState).2.1
    ∧ (∀ n, Ev.copyRows "staging_empresas" n ∉ (loadFiles files freshState).2.1)
    ∧ (loadFiles files freshState).2.2 = some fatalEmpresasMsg
    ∧ (loadFiles files freshState).1.cp1 = true
    ∧ (loadFiles files freshState).1.cp3 = false
    ∧ (loadFiles files freshState).1.cp4 = false := by
  obtain ⟨f, fs, rfl⟩ : ∃ f fs, files = f :: fs := by
    cases files with
    | nil => exact absurd rfl hne
    | cons f fs => exact ⟨f, fs, rfl⟩
  have hsf : ∀ g, g ≠ "fase2_simples" → g ≠ "fase3_parte1_staging" →
      countFase (parte1Run ((f :: fs).filter isSimplesFile)
        ((f :: fs).filter isEstabFile)).1.processed g = 0 := by
    intro g hg2 hg3
    unfold parte1Run
    rw [fase3Parte1_countFase hg3]
    show countFase (loadSimplesPhase ((f :: fs).filter isSimplesFile)
      stFase1Done).1.processed g = 0
    rw [loadSimplesPhase_countFase hg2]
    rfl
  have hchunksE : faseEntries (parte1Run ((f :: fs).filter isSimplesFile)
      ((f :: fs).filter isEstabFile)).1.processed "fase3_parte2_chunks" = [] := by
    unfold parte1Run
    rw [fase3Parte1_faseEntries (by decide)]
    show faseEntries (loadSimplesPhase ((f :: fs).filter isSimplesFile)
      stFase1Done).1.processed "fase3_parte2_chunks" = []
    rw [loadSimplesPhase_faseEntries (by decide)]
    rfl
  set sf := (f :: fs).filter isSimplesFile with hsfdef
  set ef := (f :: fs).filter isEstabFile with hefdef
  have hempRows : (parte1Run sf ef).1.empRows = 0 := rfl
  have hest : (parte1Run sf ef).1.estabTableExists = false := rfl
  have hrec : applyRecovery (parte1Run sf ef).1 =
      ((parte1Run sf ef).1, [], processedChunks0 (parte1Run sf ef).1) := by
    unfold applyRecovery
    rw [if_neg]
    intro hc
    rw [hest] at hc
    exact absurd hc.2.1 (by decide)
  have hdone : parte2Done (parte1Run sf ef).1 = false := by
    unfold parte2Done
    rw [hsf _ (by decide) (by decide)]
    decide
  have hp2 : fase3Parte2 (parte1Run sf ef).1 =
      ((parte1Run sf ef).1, [], some fatalEmpresasMsg) := by
    have h := fase3Parte2_raises (parte1Run sf ef).1 hdone
      (by rw [hrec]
          show (processedChunks0 (parte1Run sf ef).1).length ≠ 100
          unfold processedChunks0
          rw [hchunksE]
          decide)
      (Or.inl hempRows)
    rw [hrec, if_pos hempRows] at h
    exact h
  have hLE : loadEstabPhase ef (stFase2Done sf)
      = ((parte1Run sf ef).1, (parte1Run sf ef).2 ++ [], some fatalEmpresasMsg) := by
    unfold loadEstabPhase
    rw [show fase3Parte2 (fase3Parte1 ef (stFase2Done sf)).1 =
      ((fase3Parte1 ef (stFase2Done sf)).1, [], some fatalEmpresasMsg) from hp2]
    rfl
  have h4 : fase3Step freshState.cp3 ef (stFase2Done sf)
      = ((parte1Run sf ef).1, (parte1Run sf ef).2 ++ [], some fatalEmpresasMsg) := by
    show fase3Step false ef (stFase2Done sf) = _
    unfold fase3Step
    rw [if_neg (show ¬ (false = true) by decide), hLE]
  have hpre : preFase3 (f :: fs) freshState =
      (stFase2Done sf,
       [Ev.truncate "staging_empresas", Ev.markPhase "fase1_empresas"] ++
         ((loadSimplesPhase sf stFase1Done).2 ++ [Ev.markPhase "fase2_simples"]) ++
         []) := by
    unfold preFase3
    rw [hemp]
    rfl
  have hpre1 : (preFase3 (f :: fs) freshState).1 = stFase2Done sf := by
    rw [hpre]
  have hpre2 : (preFase3 (f :: fs) freshState).2 =
      [Ev.truncate "staging_empresas", Ev.markPhase "fase1_empresas"] ++
        ((loadSimplesPhase sf stFase1Done).2 ++ [Ev.markPhase "fase2_simples"]) ++
        [] := by
    rw [hpre]
  have hload : loadFiles (f :: fs) freshState =
      ((parte1Run sf ef).1,
       ([Ev.truncate "staging_empresas", Ev.markPhase "fase1_empresas"] ++
         ((loadSimplesPhase sf stFase1Done).2 ++ [Ev.markPhase "fase2_simples"]) ++
         []) ++ ((parte1Run sf ef).2 ++ []),
       some fatalEmpresasMsg) := by
    rw [loadFiles_cons, hpre1, hpre2, h4]
  refine ⟨?_, ?_, ?_, ?_, ?_, ?_⟩
  · rw [hload]
    simp
  · intro n
    rw [hload]
    intro hmem
    simp only [List.append_nil, List.nil_append, List.append_assoc,
      List.mem_append, List.mem_cons, List.mem_singleton, List.not_mem_nil,
      or_false, or_assoc] at hmem
    rcases hmem with h | h | h | h | h
    · exact Ev.noConfusion h
    · exact Ev.noConfusion h
    · rcases loadSimplesPhase_events _ _ _ h with h2 | ⟨m, h2⟩ | ⟨nm, m, h2⟩
      · exact Ev.noConfusion h2
      · rw [Ev.copyRows.injEq] at h2
        exact absurd h2.1 (by decide)
      · exact Ev.noConfusion h2
    · exact Ev.noConfusion h
    · rcases fase3Parte1_events ef (stFase2Done sf) _
        (show _ ∈ (fase3Parte1 ef (stFase2Done sf)).2 from h) with
        h2 | ⟨m, h2⟩ | ⟨nm, m, h2⟩
      · exact Ev.noConfusion h2
      · rw [Ev.copyRows.injEq] at h2
        exact absurd h2.1 (by decide)
      · exact Ev.noConfusion h2
  · rw [hload]
  · rw [hload]
    exact rfl
  · rw [hload]
    exact rfl
  · rw [hload]
    exact rfl

/-- Witness for `empty_pending_phase`. -/
theorem empty_pending_phase_witness :
    ([⟨"X.txt", []⟩] : List InputFile) ≠ []
    ∧ ([⟨"X.txt", []⟩] : List InputFile).filter isEmpresasFile = []
    ∧ Ev.markPhase "fase1_empresas" ∈
        (loadFiles [⟨"X.txt", []⟩] freshState).2.1 :=
  ⟨by decide, by decide,
    (empty_pending_phase [⟨"X.txt", []⟩] (by decide) (by decide)).1⟩

/-- C9 amended: after a successful `load_files` on a nonempty file
list the loader has already removed both the raw and the staging
directory, regardless of the cleanup flags; `Pipeline._cleanup`'s
flag-guarded removals are redundant, so the directories end up
removed under every flag combination. -/
theorem cleanup_flags (files : List InputFile) (st st' : LoadState)
    (tr : List Ev) (hne : files ≠ [])
    (hok : loadFiles files st = (st', tr, none)) :
    st'.rawDirExists = false ∧ st'.stagingDirExists = false
    ∧ ∀ fr fsg, (pipelineCleanup fr fsg st').rawDirExists = false
        ∧ (pipelineCleanup fr fsg st').stagingDirExists = false := by
  have key : st'.rawDirExists = false ∧ st'.stagingDirExists = false := by
    obtain ⟨f, fs, rfl⟩ : ∃ f fs, files = f :: fs := by
      cases files with
      | nil => exact absurd rfl hne
      | cons f fs => exact ⟨f, fs, rfl⟩
    rw [loadFiles_cons] at hok
    rcases hm : fase3Step st.cp3 ((f :: fs).filter isEstabFile)
        (preFase3 (f :: fs) st).1 with ⟨st3, tr3, err⟩
    rw [hm] at hok
    cases err with
    | some e => cases (show some e = none from congrArg (fun p => p.2.2) hok)
    | none =>
        constructor
        · exact (congrArg (fun p => p.1.rawDirExists) hok).symm.trans rfl
        · exact (congrArg (fun p => p.1.stagingDirExists) hok).symm.trans rfl
  refine ⟨key.1, key.2, ?_⟩
  intro fr fsg
  constructor
  · show (if fr then false else st'.rawDirExists) = false
    cases fr with
    | false => exact key.1
    | true => rfl
  · show (if fsg then false else st'.stagingDirExists) = false
    cases fsg with
    | false => exact key.2
    | true => rfl

/-- C9 counterexample: a successful run with both cleanup flags
false still removes the raw and staging directories (the loader's
final cleanup removes them unconditionally), refuting
removed-iff-flag-is-true. -/
theorem cleanup_flags_cx :
    freshState.rawDirExists = true ∧ freshState.stagingDirExists = true
    ∧ (pipelineRun 1 (pipelineBody seedFiles false false) "2024-01" []
        freshState).outcome = .ok "2024-01"
    ∧ (pipelineRun 1 (pipelineBody seedFiles false false) "2024-01" []
        freshState).fs.rawDirExists = false
    ∧ (pipelineRun 1 (pipelineBody seedFiles false false) "2024-01" []
        freshState).fs.stagingDirExists = false := by
  decide

/-- Witness for `cleanup_flags` at the seed release. -/
theorem cleanup_flags_witness :
    seedFiles ≠ []
    ∧ loadFiles seedFiles freshState =
        ((loadFiles seedFiles freshState).1,
         (loadFiles seedFiles freshState).2.1, none)
    ∧ ((loadFiles seedFiles freshState).1.rawDirExists = false
      ∧ (loadFiles seedFiles freshState).1.stagingDirExists = false
      ∧ ∀ fr fsg,
          (pipelineCleanup fr fsg (loadFiles seedFiles freshState).1).rawDirExists = false
          ∧ (pipelineCleanup fr fsg
              (loadFiles seedFiles freshState).1).stagingDirExists = false) := by
  have h22 : (loadFiles seedFiles freshState).2.2 = none := by decide
  have hok : loadFiles seedFiles freshState =
      ((loadFiles seedFiles freshState).1,
       (loadFiles seedFiles freshState).2.1, none) := by
    rw [← h22]
  exact ⟨by decide, hok, cleanup_flags seedFiles freshState _ _ (by decide) hok⟩

/-- Witness for `parte2_empty_staging_guard`: a fresh state. -/
theorem parte2_empty_staging_guard_witness :
    parte2Done freshState = false
    ∧ (applyRecovery freshState).2.2.length < 100
    ∧ (freshState.empRows = 0 ∨ freshState.simRows = 0)
    ∧ ((∃ msg, (fase3Parte2 freshState).2.2 = some msg
        ∧ (msg = fatalEmpresasMsg ∨ msg = fatalSimplesMsg))
      ∧ (∀ l n, Ev.chunkInsert l n ∉ (fase3Parte2 freshState).2.1)) :=
  ⟨by decide, by decide, Or.inl rfl,
    parte2_empty_staging_guard freshState (by decide) (by decide) (Or.inl rfl)⟩

end ScrapCNPJ
